import Mathlib

/-!
Shallow embedding of `fm.go` (vinser/fm), a file-mailer: a dispatch loop that
consumes filesystem events, filters created files by extension patterns, emails
matching files and moves them into a `save` sub-directory of the watched folder.

External collaborators (Go stdlib and libraries) are modelled as oracles:
* `regexp.MatchString` is a `RegexpOracle` — `.ok b` is a successful match with
  outcome `b`, `.error e` a pattern-compilation failure (Go then returns
  `(false, err)`; the call site in `ExtensionMatched` discards `err`).
* `os.Stat` is a `StatOracle` — `none` is a stat error, `some info` a `FileInfo`.
* `email.AttachFile` / `email.SendWithTLS` outcomes are `AttachOracle` /
  `SendOracle` — `some msg` is the error text, `none` success.
Side effects of the loop are recorded as a trace of `Action`s, in the order the
Go code performs them; the filesystem effect of `os.MkdirAll` / `os.Rename` is
given by `applyAction`.
-/

namespace FM

/-- `strings.TrimPrefix ext "."` as used in `ExtensionMatched`: strips exactly
one leading dot when present, otherwise returns the string unchanged. -/
def trimLeadingDot (ext : String) : String :=
  match ext.toList with
  | '.' :: rest => String.mk rest
  | _ => ext

/-- Oracle for `regexp.MatchString pattern x`: `.ok b` means the pattern
compiled and matching returned `b`; `.error e` means the pattern failed to
compile (Go's `MatchString` then returns `(false, err)`). -/
abbrev RegexpOracle := String → String → Except String Bool

/-- The `matched` component of a `regexp.MatchString` result: on a
compilation error Go returns `matched = false`. -/
def matchedValue : Except String Bool → Bool
  | .ok b => b
  | .error _ => false

/-- `ExtensionMatched` (fm.go:143-151): trims one leading `.` from `ext`, then
tests each pattern in order with `regexp.MatchString`, short-circuiting on the
first match and ignoring the error component of each result. -/
def ExtensionMatched (matchString : RegexpOracle) : List String → String → Bool
  | [], _ => false
  | pattern :: rest, ext =>
      if matchedValue (matchString pattern (trimLeadingDot ext)) then true
      else ExtensionMatched matchString rest ext

/-- The part of `os.FileInfo` the program consults. -/
structure FileInfo where
  isDir : Bool
deriving DecidableEq

/-- Oracle for `os.Stat`: `none` is a stat error, otherwise the file's info.
Also used as the filesystem state acted on by `applyAction`. -/
abbrev StatOracle := String → Option FileInfo

/-- `IsFile` (fm.go:157-160): `err == nil && !fileInfo.IsDir()`. -/
def IsFile (stat : StatOracle) (path : String) : Bool :=
  match stat path with
  | some info => !info.isDir
  | none => false

/-- Drop trailing `/` characters (helper for `filepath.Base`). -/
def dropTrailingSeps (l : List Char) : List Char :=
  (l.reverse.dropWhile (fun c => c = '/')).reverse

/-- `filepath.Base`: `"."` for the empty path, `"/"` if the path is all
separators, otherwise the last element after dropping trailing separators. -/
def filepathBase (path : String) : String :=
  if path = "" then "."
  else
    let l := dropTrailingSeps path.toList
    match l.reverse with
    | [] => "/"
    | r => String.mk ((r.takeWhile (fun c => c ≠ '/')).reverse)

/-- `filepath.Ext`: the suffix of the last element starting at its final dot,
empty if the last element has no dot. Implemented, as in Go, by scanning from
the end until a path separator. -/
def filepathExtAux : List Char → List Char → String
  | [], _ => ""
  | c :: rest, acc =>
      if c = '/' then ""
      else if c = '.' then String.mk (c :: acc)
      else filepathExtAux rest (c :: acc)

/-- `filepath.Ext path`. -/
def filepathExt (path : String) : String :=
  filepathExtAux path.toList.reverse []

/-- `filepath.Join a b` for the non-empty, already-clean path elements this
program joins (`filepath.Join` additionally applies `Clean`, which is the
identity on such inputs and is therefore omitted). -/
def filepathJoin (a b : String) : String := a ++ "/" ++ b

/-- fsnotify's `Create` operation bit. -/
def fsnotifyCreate : Nat := 1

/-- An fsnotify event: a path and an operation bitmask. -/
structure Event where
  Name : String
  Op : Nat
deriving DecidableEq

/-- `event.Has(op)`: bitmask test of fsnotify's `Op.Has`. -/
def Event.Has (e : Event) (op : Nat) : Bool := (e.Op &&& op) != 0

/-- The viper configuration fields `EmailFile` reads. -/
structure Config where
  sender : String
  addressees : List String
  host : String
  port : String
  username : String
  password : String
deriving DecidableEq

/-- The outbound message built by `EmailFile` (the `email.Email` fields set). -/
structure EmailMsg where
  From : String
  To : List String
  Subject : String
  Text : String
  attachments : List String
deriving DecidableEq

/-- One observable side effect of the loop body, in program order. -/
inductive Action where
  | sleepSeconds (n : Nat)
  | attachFile (path : String)
  | sendWithTLS (addr : String) (msg : EmailMsg)
  | logLine (msg : String)
  | mkdirAll (path : String) (perm : Nat)
  | rename (oldpath newpath : String)
deriving DecidableEq

/-- Outcome oracle for `em.AttachFile file`: `some e` is the error text. -/
abbrev AttachOracle := String → Option String

/-- Outcome oracle for `em.SendWithTLS`, keyed by the attached file. -/
abbrev SendOracle := String → Option String

/-- `EmailFile` (fm.go:107-133) as a trace of effects plus the returned error:
sleep one second, build the message, attach the file (returning an
`attach file` error on failure), then send over TLS (returning a `send file`
error on failure). -/
def EmailFile (cfg : Config) (attach : AttachOracle) (send : SendOracle)
    (file : String) : List Action × Option String :=
  let base := filepathBase file
  let em : EmailMsg :=
    { From := cfg.sender, To := cfg.addressees, Subject := base, Text := base
      attachments := [] }
  match attach file with
  | some e =>
      ([.sleepSeconds 1, .attachFile file],
       some ("attach file " ++ base ++ "\n error: " ++ e))
  | none =>
      let em := { em with attachments := [file] }
      let addr := cfg.host ++ ":" ++ cfg.port
      match send file with
      | some e =>
          ([.sleepSeconds 1, .attachFile file, .sendWithTLS addr em],
           some ("send file " ++ base ++ "\n error: " ++ e))
      | none =>
          ([.sleepSeconds 1, .attachFile file, .sendWithTLS addr em], none)

set_option linter.unusedVariables false in
/-- The dispatch-loop body for one delivered event (fm.go:68-84): on a `Create`
event whose path stats as a non-directory and whose extension matches, call
`EmailFile`; on failure log the error, on success log, `MkdirAll` the save
folder with mode `0o750` and `Rename` the file into it. `mkdirRes` and
`renameRes` are the error results of `os.MkdirAll` and `os.Rename`, which the
code discards (fm.go:78-79 ignore both return values). -/
def handleEvent (filetypes : List String) (watch : String)
    (matchString : RegexpOracle) (stat : StatOracle) (cfg : Config)
    (attach : AttachOracle) (send : SendOracle)
    (mkdirRes renameRes : Option String) (ev : Event) : List Action :=
  if ev.Has fsnotifyCreate then
    let base := filepathBase ev.Name
    if IsFile stat ev.Name then
      if ExtensionMatched matchString filetypes (filepathExt ev.Name) then
        match EmailFile cfg attach send ev.Name with
        | (tr, some errMsg) => tr ++ [.logLine errMsg]
        | (tr, none) =>
            tr ++ [.logLine ("File: " ++ base ++ " has been sent to addressees"),
                   .mkdirAll (filepathJoin watch "save") 0o750,
                   .rename ev.Name (filepathJoin (filepathJoin watch "save") base)]
      else [.logLine ("File: " ++ base ++ " has been ignored by extension")]
    else []
  else []

/-- Inputs of the dispatch loop's `select`: an event delivered on
`watcher.Events` (together with the discarded `MkdirAll`/`Rename` results for
that iteration), the events channel closing, an error delivered on
`watcher.Errors`, or the errors channel closing. -/
inductive LoopInput where
  | ev (e : Event) (mkdirRes renameRes : Option String)
  | evClosed
  | werr (msg : String)
  | werrClosed
deriving DecidableEq

/-- Whether a loop input is one of the two channel-closed signals. -/
def LoopInput.isClosed : LoopInput → Bool
  | .evClosed => true
  | .werrClosed => true
  | _ => false

/-- The dispatch loop (fm.go:61-92) over a finite list of delivered inputs:
returns the action trace and whether the goroutine returned. A delivered
watcher error is logged and the loop continues; either channel closing makes
the goroutine return; an exhausted input list means the loop is still waiting. -/
def loopRun (filetypes : List String) (watch : String)
    (matchString : RegexpOracle) (stat : StatOracle) (cfg : Config)
    (attach : AttachOracle) (send : SendOracle) :
    List LoopInput → List Action × Bool
  | [] => ([], false)
  | .ev e m r :: rest =>
      let tr := handleEvent filetypes watch matchString stat cfg attach send m r e
      let res := loopRun filetypes watch matchString stat cfg attach send rest
      (tr ++ res.1, res.2)
  | .evClosed :: _ => ([], true)
  | .werr msg :: rest =>
      let res := loopRun filetypes watch matchString stat cfg attach send rest
      (.logLine ("Watcher error: " ++ msg) :: res.1, res.2)
  | .werrClosed :: _ => ([], true)

/-- Filesystem effect of one action: `mkdirAll` creates the directory when the
path is free (intermediate components of the string path are not tracked);
`rename` moves the entry at `oldpath` onto `newpath` unless the source is
missing or the destination is an existing directory; other actions do not
touch the filesystem. -/
def applyAction (fs : StatOracle) : Action → StatOracle
  | .sleepSeconds _ => fs
  | .attachFile _ => fs
  | .sendWithTLS _ _ => fs
  | .logLine _ => fs
  | .mkdirAll p _ =>
      fun q => if q = p then (match fs p with | none => some ⟨true⟩ | some i => some i)
               else fs q
  | .rename oldp newp =>
      match fs oldp with
      | none => fs
      | some info =>
          if fs newp = some ⟨true⟩ then fs
          else fun q => if q = newp then some info
                        else if q = oldp then none else fs q

/-- Filesystem state after a trace of actions. -/
def applyTrace (fs : StatOracle) (tr : List Action) : StatOracle :=
  tr.foldl applyAction fs

/-- The log lines of a trace, in order. -/
def logLines (tr : List Action) : List String :=
  tr.filterMap fun a => match a with | .logLine m => some m | _ => none

/-! ### Concrete instances used by witnesses and counterexamples -/

/-- A concrete regexp oracle: every pattern compiles and matches exactly the
strings equal to it. -/
def eqRegexp : RegexpOracle := fun p x => .ok (p == x)

/-- A regexp oracle in which the pattern `"("` fails to compile and every
other pattern matches exactly the strings equal to it. -/
def badParenRegexp : RegexpOracle := fun p x =>
  if p = "(" then .error "error parsing regexp: missing closing )" else .ok (p == x)

/-- Attachment oracle that always succeeds. -/
def okAttach : AttachOracle := fun _ => none

/-- Send oracle that always succeeds. -/
def okSend : SendOracle := fun _ => none

/-- Send oracle that always fails with a transmission error. -/
def failSend : SendOracle := fun _ => some "tls: handshake failure"

/-- A concrete configuration. -/
def zipCfg : Config :=
  { sender := "sender@x.com", addressees := ["a@x.com"], host := "smtp.x.com"
    port := "465", username := "user", password := "pw" }

/-- A concrete filesystem: the watched directory `watch` containing the
regular file `watch/report.zip`. -/
def zipFs : StatOracle := fun p =>
  if p = "watch/report.zip" then some ⟨false⟩
  else if p = "watch" then some ⟨true⟩ else none

/-- A `Create` event for `watch/report.zip`. -/
def zipEvent : Event := ⟨"watch/report.zip", fsnotifyCreate⟩

/-- The loop-body trace for `zipEvent` when everything succeeds. -/
def zipTrace : List Action :=
  handleEvent ["zip", "rar"] "watch" eqRegexp zipFs zipCfg okAttach okSend
    none none zipEvent

/-- The loop-body trace for `zipEvent` when `os.Rename` fails with a
permission error (its result is the discarded `renameRes`). -/
def zipRenameFailTrace : List Action :=
  handleEvent ["zip", "rar"] "watch" eqRegexp zipFs zipCfg okAttach okSend
    none (some "rename: permission denied") zipEvent

/-! ### Helper lemmas about the loop-body trace -/

/-- The trace of the success path: create event, regular file, matching
extension, attachment and send both succeed. -/
theorem handleEvent_success (filetypes : List String) (watch : String)
    (matchString : RegexpOracle) (stat : StatOracle) (cfg : Config)
    (attach : AttachOracle) (send : SendOracle) (m r : Option String) (ev : Event)
    (hcr : ev.Has fsnotifyCreate = true)
    (hfile : IsFile stat ev.Name = true)
    (hmatch : ExtensionMatched matchString filetypes (filepathExt ev.Name) = true)
    (hattach : attach ev.Name = none)
    (hsend : send ev.Name = none) :
    handleEvent filetypes watch matchString stat cfg attach send m r ev =
      [.sleepSeconds 1, .attachFile ev.Name,
       .sendWithTLS (cfg.host ++ ":" ++ cfg.port)
         ⟨cfg.sender, cfg.addressees, filepathBase ev.Name, filepathBase ev.Name,
          [ev.Name]⟩,
       .logLine ("File: " ++ filepathBase ev.Name ++ " has been sent to addressees"),
       .mkdirAll (filepathJoin watch "save") 0o750,
       .rename ev.Name (filepathJoin (filepathJoin watch "save") (filepathBase ev.Name))] := by
  simp [handleEvent, EmailFile, hcr, hfile, hmatch, hattach, hsend]

/-- The trace when the attachment step fails. -/
theorem handleEvent_attachFail (filetypes : List String) (watch : String)
    (matchString : RegexpOracle) (stat : StatOracle) (cfg : Config)
    (attach : AttachOracle) (send : SendOracle) (m r : Option String) (ev : Event)
    (e : String)
    (hcr : ev.Has fsnotifyCreate = true)
    (hfile : IsFile stat ev.Name = true)
    (hmatch : ExtensionMatched matchString filetypes (filepathExt ev.Name) = true)
    (hattach : attach ev.Name = some e) :
    handleEvent filetypes watch matchString stat cfg attach send m r ev =
      [.sleepSeconds 1, .attachFile ev.Name,
       .logLine ("attach file " ++ filepathBase ev.Name ++ "\n error: " ++ e)] := by
  simp [handleEvent, EmailFile, hcr, hfile, hmatch, hattach]

/-- The trace when the send step fails. -/
theorem handleEvent_sendFail (filetypes : List String) (watch : String)
    (matchString : RegexpOracle) (stat : StatOracle) (cfg : Config)
    (attach : AttachOracle) (send : SendOracle) (m r : Option String) (ev : Event)
    (e : String)
    (hcr : ev.Has fsnotifyCreate = true)
    (hfile : IsFile stat ev.Name = true)
    (hmatch : ExtensionMatched matchString filetypes (filepathExt ev.Name) = true)
    (hattach : attach ev.Name = none)
    (hsend : send ev.Name = some e) :
    handleEvent filetypes watch matchString stat cfg attach send m r ev =
      [.sleepSeconds 1, .attachFile ev.Name,
       .sendWithTLS (cfg.host ++ ":" ++ cfg.port)
         ⟨cfg.sender, cfg.addressees, filepathBase ev.Name, filepathBase ev.Name,
          [ev.Name]⟩,
       .logLine ("send file " ++ filepathBase ev.Name ++ "\n error: " ++ e)] := by
  simp [handleEvent, EmailFile, hcr, hfile, hmatch, hattach, hsend]

/-- Joining a non-trivial component onto a path yields a strictly longer,
hence different, path. -/
theorem filepathJoin_ne_left (a b : String) : filepathJoin a b ≠ a := by
  intro h
  have hl := congrArg String.length h
  rw [filepathJoin, String.length_append, String.length_append] at hl
  have h1 : ("/" : String).length = 1 := rfl
  rw [h1] at hl
  omega

/-! ### Claims -/

/-- C2: `ExtensionMatched P e` is true iff at least one pattern of `P`, as
tested by `regexp.MatchString`, matches `e` with a single leading `.`
stripped; patterns are evaluated in order with short-circuit on the first
match, and the empty pattern list always yields false. -/
theorem c2_extensionMatched_any_pattern (m : RegexpOracle) :
    (∀ templates ext, ExtensionMatched m templates ext = true ↔
        ∃ p ∈ templates, matchedValue (m p (trimLeadingDot ext)) = true) ∧
    (∀ ext, ExtensionMatched m [] ext = false) ∧
    (∀ p rest ext, ExtensionMatched m (p :: rest) ext =
        (matchedValue (m p (trimLeadingDot ext)) || ExtensionMatched m rest ext)) := by
  have hcons : ∀ p rest ext, ExtensionMatched m (p :: rest) ext =
      (matchedValue (m p (trimLeadingDot ext)) || ExtensionMatched m rest ext) := by
    intro p rest ext
    cases hb : matchedValue (m p (trimLeadingDot ext)) <;> simp [ExtensionMatched, hb]
  refine ⟨?_, fun ext => rfl, hcons⟩
  intro templates ext
  induction templates with
  | nil => simp [ExtensionMatched]
  | cons p rest ih =>
      rw [hcons]
      cases hb : matchedValue (m p (trimLeadingDot ext)) with
      | true => simp [hb]
      | false => simp [hb, ih]

/-- Pointwise effect of a `mkdirAll` action. -/
theorem applyAction_mkdirAll (g : StatOracle) (p : String) (perm : Nat) (q : String) :
    applyAction g (.mkdirAll p perm) q =
      if q = p then (match g p with | none => some (⟨true⟩ : FileInfo) | some i => some i)
      else g q :=
  rfl

/-- Pointwise effect of a `rename` action whose source is a regular file and
whose destination is not an existing directory. -/
theorem applyAction_rename (g : StatOracle) (src dst : String)
    (hg1 : g src = some ⟨false⟩) (hg2 : g dst ≠ some ⟨true⟩) (q : String) :
    applyAction g (.rename src dst) q =
      if q = dst then some ⟨false⟩ else if q = src then none else g q := by
  simp [applyAction, hg1, hg2]

/-- C5: for a create event on a regular file with matching extension whose
transfer succeeds, the trace renames the file to `watch/save/baseName`, and
applying the trace to the filesystem removes the original path and places a
regular file at the destination (provided the destination is not an existing
directory and differs from the source). -/
theorem c5_moved_into_save (filetypes : List String) (watch : String)
    (matchString : RegexpOracle) (cfg : Config) (attach : AttachOracle)
    (send : SendOracle) (m r : Option String) (ev : Event) (fs : StatOracle)
    (hcr : ev.Has fsnotifyCreate = true)
    (hsrc : fs ev.Name = some ⟨false⟩)
    (hmatch : ExtensionMatched matchString filetypes (filepathExt ev.Name) = true)
    (hattach : attach ev.Name = none)
    (hsend : send ev.Name = none)
    (hdst : fs (filepathJoin (filepathJoin watch "save") (filepathBase ev.Name)) ≠
      some ⟨true⟩)
    (hne : ev.Name ≠ filepathJoin (filepathJoin watch "save") (filepathBase ev.Name)) :
    Action.rename ev.Name
        (filepathJoin (filepathJoin watch "save") (filepathBase ev.Name)) ∈
      handleEvent filetypes watch matchString fs cfg attach send m r ev ∧
    applyTrace fs (handleEvent filetypes watch matchString fs cfg attach send m r ev)
      ev.Name = none ∧
    applyTrace fs (handleEvent filetypes watch matchString fs cfg attach send m r ev)
      (filepathJoin (filepathJoin watch "save") (filepathBase ev.Name)) =
      some ⟨false⟩ := by
  have hfile : IsFile fs ev.Name = true := by simp [IsFile, hsrc]
  have htr := handleEvent_success filetypes watch matchString fs cfg attach send
    m r ev hcr hfile hmatch hattach hsend
  have happ : applyTrace fs
      (handleEvent filetypes watch matchString fs cfg attach send m r ev) =
      applyAction
        (applyAction fs (.mkdirAll (filepathJoin watch "save") 0o750))
        (.rename ev.Name
          (filepathJoin (filepathJoin watch "save") (filepathBase ev.Name))) := by
    rw [htr]
    rfl
  have hA_src :
      applyAction fs (.mkdirAll (filepathJoin watch "save") 0o750) ev.Name =
        some ⟨false⟩ := by
    rw [applyAction_mkdirAll]
    by_cases hq : ev.Name = filepathJoin watch "save"
    · rw [if_pos hq, ← hq, hsrc]
    · rw [if_neg hq, hsrc]
  have hA_dst :
      applyAction fs (.mkdirAll (filepathJoin watch "save") 0o750)
        (filepathJoin (filepathJoin watch "save") (filepathBase ev.Name)) =
      fs (filepathJoin (filepathJoin watch "save") (filepathBase ev.Name)) := by
    rw [applyAction_mkdirAll,
      if_neg (filepathJoin_ne_left (filepathJoin watch "save") (filepathBase ev.Name))]
  have hA_dst_ne :
      applyAction fs (.mkdirAll (filepathJoin watch "save") 0o750)
        (filepathJoin (filepathJoin watch "save") (filepathBase ev.Name)) ≠
        some ⟨true⟩ := by
    rw [hA_dst]
    exact hdst
  refine ⟨?_, ?_, ?_⟩
  · rw [htr]
    simp
  · rw [happ, applyAction_rename _ _ _ hA_src hA_dst_ne, if_neg hne, if_pos rfl]
  · rw [happ, applyAction_rename _ _ _ hA_src hA_dst_ne, if_pos rfl]

/-- C5 witness: on the concrete run, `watch/report.zip` is renamed to
`watch/save/report.zip`; afterwards the source path no longer exists and the
destination is a regular file. -/
theorem c5_moved_into_save_witness :
    Action.rename "watch/report.zip" "watch/save/report.zip" ∈ zipTrace ∧
    applyTrace zipFs zipTrace "watch/report.zip" = none ∧
    applyTrace zipFs zipTrace "watch/save/report.zip" = some ⟨false⟩ :=
  c5_moved_into_save ["zip", "rar"] "watch" eqRegexp zipCfg okAttach okSend
    none none zipEvent zipFs (by decide) (by decide) (by decide) (by decide)
    (by decide) (by decide) (by decide)

/-- C6: a pattern on which `regexp.MatchString` reports an error (a malformed
pattern) is treated as non-matching for its position only: evaluation
continues with the remaining patterns and never aborts. -/
theorem c6_malformed_pattern_skipped (m : RegexpOracle) (p e ext : String)
    (rest : List String)
    (h : m p (trimLeadingDot ext) = .error e) :
    ExtensionMatched m (p :: rest) ext = ExtensionMatched m rest ext := by
  simp [ExtensionMatched, h, matchedValue]

/-- C6 witness: with a pattern list starting with the malformed `"("`, the
malformed head is skipped and the later `"zip"` pattern still matches. -/
theorem c6_malformed_pattern_skipped_witness :
    badParenRegexp "(" (trimLeadingDot ".zip") =
      .error "error parsing regexp: missing closing )" ∧
    ExtensionMatched badParenRegexp ["(", "zip"] ".zip" =
      ExtensionMatched badParenRegexp ["zip"] ".zip" :=
  ⟨rfl, c6_malformed_pattern_skipped badParenRegexp "("
    "error parsing regexp: missing closing )" ".zip" ["zip"] rfl⟩

/-- C7: only events whose op has the `Create` bit are processed — any other
event yields an empty trace (no log line) — and a path that stats as a
directory, or more generally fails the `IsFile` check, is ignored before
extension filtering, also with an empty trace. -/
theorem c7_create_and_regular_file_only (filetypes : List String) (watch : String)
    (matchString : RegexpOracle) (stat : StatOracle) (cfg : Config)
    (attach : AttachOracle) (send : SendOracle) (m r : Option String) (ev : Event) :
    (ev.Has fsnotifyCreate = false →
      handleEvent filetypes watch matchString stat cfg attach send m r ev = []) ∧
    (∀ info, stat ev.Name = some info → info.isDir = true →
      handleEvent filetypes watch matchString stat cfg attach send m r ev = []) ∧
    (IsFile stat ev.Name = false →
      handleEvent filetypes watch matchString stat cfg attach send m r ev = []) := by
  have h3 : IsFile stat ev.Name = false →
      handleEvent filetypes watch matchString stat cfg attach send m r ev = [] := by
    intro h
    simp [handleEvent, h]
  refine ⟨?_, ?_, h3⟩
  · intro h
    simp [handleEvent, h]
  · intro info hstat hdir
    apply h3
    simp [IsFile, hstat, hdir]

/-- C7 witness: a `Chmod`-only event (op bit 16) on the matching file is
ignored, and a `Create` event on the directory `watch` itself is ignored. -/
theorem c7_create_and_regular_file_only_witness :
    handleEvent ["zip", "rar"] "watch" eqRegexp zipFs zipCfg okAttach okSend
      none none ⟨"watch/report.zip", 16⟩ = [] ∧
    handleEvent ["zip", "rar"] "watch" eqRegexp zipFs zipCfg okAttach okSend
      none none ⟨"watch", fsnotifyCreate⟩ = [] :=
  ⟨(c7_create_and_regular_file_only ["zip", "rar"] "watch" eqRegexp zipFs zipCfg
      okAttach okSend none none ⟨"watch/report.zip", 16⟩).1 (by decide),
   (c7_create_and_regular_file_only ["zip", "rar"] "watch" eqRegexp zipFs zipCfg
      okAttach okSend none none ⟨"watch", fsnotifyCreate⟩).2.1 ⟨true⟩ rfl rfl⟩

/-- C8: `EmailFile` always begins with the one-second sleep, and the
attachment of the file is never an earlier step than the sleep: its index in
the effect trace is strictly positive. -/
theorem c8_sleep_before_attach (cfg : Config) (attach : AttachOracle)
    (send : SendOracle) (file : String) :
    (EmailFile cfg attach send file).1.head? = some (.sleepSeconds 1) ∧
    (∀ i p, (EmailFile cfg attach send file).1.get? i = some (.attachFile p) →
      0 < i) := by
  constructor
  · rcases hA : attach file with _ | e1
    · rcases hS : send file with _ | e2 <;> simp [EmailFile, hA, hS]
    · simp [EmailFile, hA]
  · intro i p h
    match i with
    | n + 1 => exact n.succ_pos
    | 0 =>
      exfalso
      rcases hA : attach file with _ | e1
      · rcases hS : send file with _ | e2 <;> simp [EmailFile, hA, hS] at h
      · simp [EmailFile, hA] at h

/-- C8 witness: on a concrete run the trace starts with the sleep, and the
attach step sits at the strictly positive index 1. -/
theorem c8_sleep_before_attach_witness :
    (EmailFile zipCfg okAttach okSend "watch/report.zip").1.get? 1 =
      some (.attachFile "watch/report.zip") ∧
    (EmailFile zipCfg okAttach okSend "watch/report.zip").1.head? =
      some (.sleepSeconds 1) ∧ 0 < 1 :=
  ⟨by decide,
   (c8_sleep_before_attach zipCfg okAttach okSend "watch/report.zip").1,
   (c8_sleep_before_attach zipCfg okAttach okSend "watch/report.zip").2 1
     "watch/report.zip" (by decide)⟩

/-- C9: a watcher error delivered on the errors channel is logged with the
`Watcher error:` prefix and the loop continues with the remaining inputs
unchanged; the goroutine returns exactly when one of the two channels closes
— no delivered event or error ever terminates it. -/
theorem c9_watcher_errors_nonfatal (filetypes : List String) (watch : String)
    (matchString : RegexpOracle) (stat : StatOracle) (cfg : Config)
    (attach : AttachOracle) (send : SendOracle) :
    (∀ msg rest,
      loopRun filetypes watch matchString stat cfg attach send (.werr msg :: rest) =
        (Action.logLine ("Watcher error: " ++ msg) ::
          (loopRun filetypes watch matchString stat cfg attach send rest).1,
         (loopRun filetypes watch matchString stat cfg attach send rest).2)) ∧
    (∀ inputs,
      (loopRun filetypes watch matchString stat cfg attach send inputs).2 = true ↔
        ∃ i ∈ inputs, i.isClosed = true) := by
  constructor
  · intro msg rest
    rfl
  · intro inputs
    induction inputs with
    | nil => simp [loopRun]
    | cons i rest ih => cases i <;> simp [loopRun, LoopInput.isClosed, ih]

/-- C9 witness: after a watcher error and a processed event the loop has not
terminated; it terminates once the events channel closes. -/
theorem c9_watcher_errors_nonfatal_witness :
    (loopRun ["zip", "rar"] "watch" eqRegexp zipFs zipCfg okAttach okSend
      [.werr "boom", .ev zipEvent none none]).2 = false ∧
    (loopRun ["zip", "rar"] "watch" eqRegexp zipFs zipCfg okAttach okSend
      [.werr "boom", .evClosed]).2 = true := by
  constructor
  · have h := (c9_watcher_errors_nonfatal ["zip", "rar"] "watch" eqRegexp zipFs
      zipCfg okAttach okSend).2 [.werr "boom", .ev zipEvent none none]
    revert h
    decide
  · exact (c9_watcher_errors_nonfatal ["zip", "rar"] "watch" eqRegexp zipFs
      zipCfg okAttach okSend).2 [.werr "boom", .evClosed] |>.mpr
      ⟨.evClosed, by decide⟩

/-- C3 counterexample: the directory-creation action of the concrete
successful run carries mode `0o750`, whose group bits are read and execute
only (`0o050`), not the read-write-execute (`0o070`) the claim ascribes to
the group. -/
theorem c3_mkdir_perm_counterexample :
    zipTrace =
      [.sleepSeconds 1, .attachFile "watch/report.zip",
       .sendWithTLS "smtp.x.com:465"
         ⟨"sender@x.com", ["a@x.com"], "report.zip", "report.zip",
          ["watch/report.zip"]⟩,
       .logLine "File: report.zip has been sent to addressees",
       .mkdirAll "watch/save" 0o750,
       .rename "watch/report.zip" "watch/save/report.zip"] ∧
    0o750 &&& 0o070 = 0o050 ∧ ¬ (0o750 &&& 0o070 = 0o070) := by
  refine ⟨by decide, by decide, by decide⟩

/-- C3 amended: the relocator ensures the save directory exists via
`os.MkdirAll` with mode `0o750` — read, write and execute for the owner, read
and execute (no write) for the group, and no access for others; no other mode
is ever passed. -/
theorem c3_mkdir_mode_0750 (filetypes : List String) (watch : String)
    (matchString : RegexpOracle) (stat : StatOracle) (cfg : Config)
    (attach : AttachOracle) (send : SendOracle) (m r : Option String) (ev : Event)
    (hcr : ev.Has fsnotifyCreate = true)
    (hfile : IsFile stat ev.Name = true)
    (hmatch : ExtensionMatched matchString filetypes (filepathExt ev.Name) = true)
    (hattach : attach ev.Name = none)
    (hsend : send ev.Name = none) :
    Action.mkdirAll (filepathJoin watch "save") 0o750 ∈
      handleEvent filetypes watch matchString stat cfg attach send m r ev ∧
    (∀ p perm, Action.mkdirAll p perm ∈
        handleEvent filetypes watch matchString stat cfg attach send m r ev →
      p = filepathJoin watch "save" ∧ perm = 0o750) ∧
    0o750 &&& 0o700 = 0o700 ∧ 0o750 &&& 0o070 = 0o050 ∧ 0o750 &&& 0o007 = 0 := by
  have htr := handleEvent_success filetypes watch matchString stat cfg attach
    send m r ev hcr hfile hmatch hattach hsend
  refine ⟨?_, ?_, by decide, by decide, by decide⟩
  · rw [htr]
    simp
  · intro p perm hmem
    rw [htr] at hmem
    simpa using hmem

/-- C3 witness: on the concrete run the save directory is created with mode
`0o750`. -/
theorem c3_mkdir_mode_0750_witness :
    Action.mkdirAll "watch/save" 0o750 ∈ zipTrace :=
  (c3_mkdir_mode_0750 ["zip", "rar"] "watch" eqRegexp zipFs zipCfg okAttach
    okSend none none zipEvent (by decide) (by decide) (by decide) (by decide)
    (by decide)).1

/-- C4 counterexample: on the concrete run in which `os.Rename` fails with a
permission error, the trace — log lines included — is identical to the trace
of the fully successful run: the sole log line is the `sent` line belonging
to the successful transfer, and no log line reports the relocate failure (the
code discards the `MkdirAll` and `Rename` results). -/
theorem c4_relocate_failure_unlogged_counterexample :
    zipRenameFailTrace = zipTrace ∧
    logLines zipRenameFailTrace = ["File: report.zip has been sent to addressees"] :=
  ⟨rfl, by decide⟩

/-- C4 amended: the outcomes sent, skipped-by-extension, transfer-failed and
watcher-error each produce exactly one log line, but a failure of the
directory creation or of the move after a successful transfer is not logged:
the trace is independent of the discarded `MkdirAll` and `Rename` results. -/
theorem c4_one_log_line_except_relocate (filetypes : List String) (watch : String)
    (matchString : RegexpOracle) (stat : StatOracle) (cfg : Config)
    (attach : AttachOracle) (send : SendOracle) (ev : Event) :
    (∀ m r, ev.Has fsnotifyCreate = true → IsFile stat ev.Name = true →
      ExtensionMatched matchString filetypes (filepathExt ev.Name) = true →
      attach ev.Name = none → send ev.Name = none →
      logLines (handleEvent filetypes watch matchString stat cfg attach send m r ev) =
        ["File: " ++ filepathBase ev.Name ++ " has been sent to addressees"]) ∧
    (∀ m r, ev.Has fsnotifyCreate = true → IsFile stat ev.Name = true →
      ExtensionMatched matchString filetypes (filepathExt ev.Name) = false →
      logLines (handleEvent filetypes watch matchString stat cfg attach send m r ev) =
        ["File: " ++ filepathBase ev.Name ++ " has been ignored by extension"]) ∧
    (∀ m r e, ev.Has fsnotifyCreate = true → IsFile stat ev.Name = true →
      ExtensionMatched matchString filetypes (filepathExt ev.Name) = true →
      (EmailFile cfg attach send ev.Name).2 = some e →
      logLines (handleEvent filetypes watch matchString stat cfg attach send m r ev) =
        [e]) ∧
    (∀ msg inputs,
      logLines (loopRun filetypes watch matchString stat cfg attach send
          (.werr msg :: inputs)).1 =
        ("Watcher error: " ++ msg) ::
          logLines (loopRun filetypes watch matchString stat cfg attach send inputs).1) ∧
    (∀ m1 r1 m2 r2,
      handleEvent filetypes watch matchString stat cfg attach send m1 r1 ev =
        handleEvent filetypes watch matchString stat cfg attach send m2 r2 ev) := by
  refine ⟨?_, ?_, ?_, ?_, fun m1 r1 m2 r2 => rfl⟩
  · intro m r hcr hfile hmatch hattach hsend
    rw [handleEvent_success filetypes watch matchString stat cfg attach send m r ev
      hcr hfile hmatch hattach hsend]
    rfl
  · intro m r hcr hfile hmatch
    simp [handleEvent, hcr, hfile, hmatch, logLines]
  · intro m r e hcr hfile hmatch hres
    rcases hA : attach ev.Name with _ | e1
    · rcases hS : send ev.Name with _ | e2
      · rw [show (EmailFile cfg attach send ev.Name).2 = none by
          simp [EmailFile, hA, hS]] at hres
        exact absurd hres (by simp)
      · have h2 : (EmailFile cfg attach send ev.Name).2 =
            some ("send file " ++ filepathBase ev.Name ++ "\n error: " ++ e2) := by
          simp [EmailFile, hA, hS]
        rw [h2] at hres
        obtain rfl : ("send file " ++ filepathBase ev.Name ++ "\n error: " ++ e2) = e := by
          injection hres
        rw [handleEvent_sendFail filetypes watch matchString stat cfg attach send
          m r ev e2 hcr hfile hmatch hA hS]
        rfl
    · have h2 : (EmailFile cfg attach send ev.Name).2 =
          some ("attach file " ++ filepathBase ev.Name ++ "\n error: " ++ e1) := by
        simp [EmailFile, hA]
      rw [h2] at hres
      obtain rfl : ("attach file " ++ filepathBase ev.Name ++ "\n error: " ++ e1) = e := by
        injection hres
      rw [handleEvent_attachFail filetypes watch matchString stat cfg attach send
        m r ev e1 hcr hfile hmatch hA]
      rfl
  · intro msg inputs
    rfl

/-- C4 amended witness: the sent outcome of the concrete run yields exactly
the one `sent` log line. -/
theorem c4_one_log_line_except_relocate_witness :
    logLines zipTrace = ["File: report.zip has been sent to addressees"] :=
  (c4_one_log_line_except_relocate ["zip", "rar"] "watch" eqRegexp zipFs zipCfg
    okAttach okSend zipEvent).1 none none (by decide) (by decide) (by decide)
    (by decide) (by decide)

/-- C10: a `Create` event whose path cannot be stat-ed at processing time is
dropped silently: the trace is empty, so there is no transfer, no relocation
and no log line. -/
theorem c10_vanished_file_dropped_silently (filetypes : List String)
    (watch : String) (matchString : RegexpOracle) (stat : StatOracle)
    (cfg : Config) (attach : AttachOracle) (send : SendOracle)
    (m r : Option String) (ev : Event)
    (hcr : ev.Has fsnotifyCreate = true)
    (hstat : stat ev.Name = none) :
    handleEvent filetypes watch matchString stat cfg attach send m r ev = [] := by
  have h : IsFile stat ev.Name = false := by simp [IsFile, hstat]
  simp [handleEvent, hcr, h]

/-- C1: for a processed create event on a matching regular file, a rename
into the processed area occurs iff `EmailFile` returned success; on failure
the trace is the transfer trace plus the error log line only and leaves the
filesystem unchanged (the file stays at its original path); and the transfer
trace itself contains no rename, every action of the trace after it coming
later — relocation never starts before the transfer call has completed. -/
theorem c1_relocate_iff_transfer_success (filetypes : List String) (watch : String)
    (matchString : RegexpOracle) (stat : StatOracle) (cfg : Config)
    (attach : AttachOracle) (send : SendOracle) (m r : Option String) (ev : Event)
    (hcr : ev.Has fsnotifyCreate = true)
    (hfile : IsFile stat ev.Name = true)
    (hmatch : ExtensionMatched matchString filetypes (filepathExt ev.Name) = true) :
    ((EmailFile cfg attach send ev.Name).2 = none ↔
      ∃ s d, Action.rename s d ∈
        handleEvent filetypes watch matchString stat cfg attach send m r ev) ∧
    (∀ e, (EmailFile cfg attach send ev.Name).2 = some e →
      handleEvent filetypes watch matchString stat cfg attach send m r ev =
        (EmailFile cfg attach send ev.Name).1 ++ [.logLine e] ∧
      applyTrace stat
        (handleEvent filetypes watch matchString stat cfg attach send m r ev) = stat) ∧
    (∀ s d, Action.rename s d ∉ (EmailFile cfg attach send ev.Name).1) ∧
    (∃ rest, handleEvent filetypes watch matchString stat cfg attach send m r ev =
      (EmailFile cfg attach send ev.Name).1 ++ rest) := by
  rcases hA : attach ev.Name with _ | e1
  · rcases hS : send ev.Name with _ | e2
    · have htr := handleEvent_success filetypes watch matchString stat cfg attach
        send m r ev hcr hfile hmatch hA hS
      have h1 : (EmailFile cfg attach send ev.Name).1 =
          [.sleepSeconds 1, .attachFile ev.Name,
           .sendWithTLS (cfg.host ++ ":" ++ cfg.port)
             ⟨cfg.sender, cfg.addressees, filepathBase ev.Name, filepathBase ev.Name,
              [ev.Name]⟩] := by
        simp [EmailFile, hA, hS]
      have h2 : (EmailFile cfg attach send ev.Name).2 = none := by
        simp [EmailFile, hA, hS]
      refine ⟨⟨fun _ => ?_, fun _ => h2⟩, ?_, ?_, ?_⟩
      · exact ⟨ev.Name,
          filepathJoin (filepathJoin watch "save") (filepathBase ev.Name),
          by rw [htr]; simp⟩
      · intro e he
        rw [h2] at he
        exact absurd he (by simp)
      · intro s d
        rw [h1]
        simp
      · refine ⟨[.logLine ("File: " ++ filepathBase ev.Name ++ " has been sent to addressees"),
          .mkdirAll (filepathJoin watch "save") 0o750,
          .rename ev.Name (filepathJoin (filepathJoin watch "save") (filepathBase ev.Name))], ?_⟩
        rw [htr, h1]
        rfl
    · have htr := handleEvent_sendFail filetypes watch matchString stat cfg attach
        send m r ev e2 hcr hfile hmatch hA hS
      have h1 : (EmailFile cfg attach send ev.Name).1 =
          [.sleepSeconds 1, .attachFile ev.Name,
           .sendWithTLS (cfg.host ++ ":" ++ cfg.port)
             ⟨cfg.sender, cfg.addressees, filepathBase ev.Name, filepathBase ev.Name,
              [ev.Name]⟩] := by
        simp [EmailFile, hA, hS]
      have h2 : (EmailFile cfg attach send ev.Name).2 =
          some ("send file " ++ filepathBase ev.Name ++ "\n error: " ++ e2) := by
        simp [EmailFile, hA, hS]
      refine ⟨⟨fun hn => ?_, fun hex => ?_⟩, ?_, ?_, ?_⟩
      · rw [h2] at hn
        exact absurd hn (by simp)
      · exfalso
        obtain ⟨s, d, hmem⟩ := hex
        rw [htr] at hmem
        simp at hmem
      · intro e he
        rw [h2] at he
        obtain rfl : ("send file " ++ filepathBase ev.Name ++ "\n error: " ++ e2) = e := by
          injection he
        constructor
        · rw [htr, h1]
          rfl
        · rw [htr]
          rfl
      · intro s d
        rw [h1]
        simp
      · exact ⟨[.logLine ("send file " ++ filepathBase ev.Name ++ "\n error: " ++ e2)],
          by rw [htr, h1]; rfl⟩
  · have htr := handleEvent_attachFail filetypes watch matchString stat cfg attach
      send m r ev e1 hcr hfile hmatch hA
    have h1 : (EmailFile cfg attach send ev.Name).1 =
        [.sleepSeconds 1, .attachFile ev.Name] := by
      simp [EmailFile, hA]
    have h2 : (EmailFile cfg attach send ev.Name).2 =
        some ("attach file " ++ filepathBase ev.Name ++ "\n error: " ++ e1) := by
      simp [EmailFile, hA]
    refine ⟨⟨fun hn => ?_, fun hex => ?_⟩, ?_, ?_, ?_⟩
    · rw [h2] at hn
      exact absurd hn (by simp)
    · exfalso
      obtain ⟨s, d, hmem⟩ := hex
      rw [htr] at hmem
      simp at hmem
    · intro e he
      rw [h2] at he
      obtain rfl : ("attach file " ++ filepathBase ev.Name ++ "\n error: " ++ e1) = e := by
        injection he
      constructor
      · rw [htr, h1]
        rfl
      · rw [htr]
        rfl
    · intro s d
      rw [h1]
      simp
    · exact ⟨[.logLine ("attach file " ++ filepathBase ev.Name ++ "\n error: " ++ e1)],
        by rw [htr, h1]; rfl⟩

/-- C1 witness: on the concrete successful run the transfer succeeded and a
rename action is present; on the same event with a failing send, the trace is
the transfer trace plus one log line and the filesystem is unchanged. -/
theorem c1_relocate_iff_transfer_success_witness :
    (∃ s d, Action.rename s d ∈ zipTrace) ∧
    handleEvent ["zip", "rar"] "watch" eqRegexp zipFs zipCfg okAttach failSend
        none none zipEvent =
      (EmailFile zipCfg okAttach failSend "watch/report.zip").1 ++
        [.logLine "send file report.zip\n error: tls: handshake failure"] ∧
    applyTrace zipFs
      (handleEvent ["zip", "rar"] "watch" eqRegexp zipFs zipCfg okAttach failSend
        none none zipEvent) = zipFs :=
  ⟨(c1_relocate_iff_transfer_success ["zip", "rar"] "watch" eqRegexp zipFs zipCfg
      okAttach okSend none none zipEvent (by decide) (by decide) (by decide)).1.mp
      (by decide),
   ((c1_relocate_iff_transfer_success ["zip", "rar"] "watch" eqRegexp zipFs zipCfg
      okAttach failSend none none zipEvent (by decide) (by decide) (by decide)).2.1
      "send file report.zip\n error: tls: handshake failure" (by decide)).1,
   ((c1_relocate_iff_transfer_success ["zip", "rar"] "watch" eqRegexp zipFs zipCfg
      okAttach failSend none none zipEvent (by decide) (by decide) (by decide)).2.1
      "send file report.zip\n error: tls: handshake failure" (by decide)).2⟩

/-- C10 witness: a create event for a path absent from the filesystem
produces an empty trace. -/
theorem c10_vanished_file_dropped_silently_witness :
    zipFs "watch/ghost.zip" = none ∧
    handleEvent ["zip", "rar"] "watch" eqRegexp zipFs zipCfg okAttach okSend
      none none ⟨"watch/ghost.zip", fsnotifyCreate⟩ = [] :=
  ⟨by decide,
   c10_vanished_file_dropped_silently ["zip", "rar"] "watch" eqRegexp zipFs
     zipCfg okAttach okSend none none ⟨"watch/ghost.zip", fsnotifyCreate⟩
     (by decide) (by decide)⟩

end FM
